import Mathlib

/-!
Shallow embedding of `pool.go` from schwartzmx/gremgo-neptune: a bounded
pool of reusable client connections.

Modelling conventions:
* `time.Time` and `time.Duration` are embedded as `Int` (nanoseconds since
  the epoch; the Go zero `time.Time` is `0`).  `t.Before(u)` is `t < u` and
  `n.Add(-d)` is `n - d`.
* The opaque `*Client` pointer is `Option Client`; `Client.Close()` is an
  external effect, recorded by returning the list of clients on which it
  was invoked.  Go would nil-panic when dereferencing a nil client; the two
  helpers below are applied exactly where the source dereferences, and all
  scenarios considered here use non-nil clients.
* `sync.Cond` is tracked as a `Bool` (`cond != nil`); `Signal` is recorded
  as a `Bool` output.  `cleanerCh` is `Option Bool`: `none` = nil channel,
  `some false` = open channel, `some true` = closed channel (Go panics on
  `close` of a closed channel, which we model as returning `none`).
* `Pool.Dial` is an external function; each call to `Get` receives the
  outcome of the dial it would perform (`none` = dial error).
* The wait loop of `Get` cannot complete in a sequential model; reaching
  `cond.Wait()` is reported as the observation `GetResult.wouldBlock`.
  The per-wakeup body of the background cleaner goroutine is modelled as the
  step `Pool.cleanerTick`.
-/

namespace Gremgo

/-- The opaque client connection (`*Client`): an identity plus the
consumer-set `Errored` flag. -/
structure Client where
  id : Nat
  Errored : Bool
deriving DecidableEq, Repr

/-- Structure `PooledConnection` from pool.go: pool handle given to callers.
The `Pool` back-pointer is implicit (operations take the pool as an
argument). `t` is the creation time; a Go struct literal that omits it
leaves the zero time `0`. -/
structure PooledConnection where
  Client : Option Client
  t : Int
deriving DecidableEq, Repr

/-- Structure `idleConnection` from pool.go; `t` is the time the connection was
idled. -/
structure IdleConnection where
  pc : PooledConnection
  t : Int
deriving DecidableEq, Repr

/-- The pool state (`Pool` from pool.go).  `cond : Bool` records whether
`p.cond` is non-nil; `cleanerCh : Option Bool` records the cleaner channel
(`none` = nil, `some b` = channel with closed-flag `b`). -/
structure Pool where
  MaxActive : Int
  IdleTimeout : Int
  MaxLifetime : Int
  idle : List IdleConnection
  active : Int
  cond : Bool
  cleanerCh : Option Bool
  closed : Bool
deriving DecidableEq, Repr

/-- Effect of `c.Close()` on a `*Client`: the list of clients closed by this call
(Go would nil-panic on `none`; unreachable in the scenarios considered). -/
def closeClient (c : Option Client) : List Client :=
  c.toList

/-- Reading `c.Errored` through a `*Client` (Go would nil-panic on `none`). -/
def clientErrored (c : Option Client) : Bool :=
  (c.map Client.Errored).getD false

/-- Method `Pool.first`: returns the first idle connection, or `none` when the
idle slice is empty. -/
def Pool.first (p : Pool) : Option IdleConnection :=
  match p.idle with
  | [] => none
  | c :: _ => some c

/-- Method `Pool.release`: decrements `active` and signals one waiter, unless the
pool is closed.  Returns the new pool and whether a signal was sent
(`p.cond != nil`). -/
def Pool.release (p : Pool) : Pool × Bool :=
  if p.closed then (p, false)
  else ({ p with active := p.active - 1 }, p.cond)

/-- Method `Pool.needStartCleaner`. -/
def Pool.needStartCleaner (p : Pool) : Bool :=
  (decide (0 < p.MaxLifetime) || decide (0 < p.IdleTimeout)) &&
    !p.idle.isEmpty && p.cleanerCh.isNone

/-- Method `Pool.startCleanerLocked`: allocates the cleaner channel (and spawns
the cleaner goroutine, whose wakeups are modelled by `Pool.cleanerTick`). -/
def Pool.startCleanerLocked (p : Pool) : Pool :=
  if p.needStartCleaner then { p with cleanerCh := some false } else p

/-- Observable outcome of one pass of the wait loop of `Pool.Get`. -/
inductive GetResult where
  | conn (pc : PooledConnection)
  | dialErr
  | wouldBlock
deriving DecidableEq, Repr

/-- The connection returned on success, if any. -/
def GetResult.conn? : GetResult → Option PooledConnection
  | .conn pc => some pc
  | _ => none

/-- Whether `Get` successfully returned a connection. -/
def GetResult.isConn : GetResult → Bool
  | .conn _ => true
  | _ => false

/-- Method `Pool.Get`, one pass of the wait loop.  `dialResult` is the outcome of
the dial that would be performed (`none` = dial error) and `now` is
`time.Now()` at the dial-success point.  Returns the observation, the new
pool state, and whether a waiter was signalled during the call.

Mirrors pool.go lines 38-81: if an idle connection exists, `active` is
incremented and a fresh `PooledConnection` sharing its client is returned
(the struct literal omits `t`, so it is the zero time; the idle slice is
not modified by this branch).  Otherwise, if under capacity, `active` is
incremented and the dial performed: on error `release` undoes the
increment (when the pool is not closed) and the error is returned; on
success a handle with `t = now` is returned.  Otherwise the caller would
block on the condition variable (created here if nil). -/
def Pool.get (p : Pool) (dialResult : Option Client) (now : Int) :
    GetResult × Pool × Bool :=
  match p.first with
  | some conn =>
      (GetResult.conn { Client := conn.pc.Client, t := 0 },
        { p with active := p.active + 1 }, false)
  | none =>
      if p.MaxActive = 0 ∨ p.active < p.MaxActive then
        let p1 : Pool := { p with active := p.active + 1 }
        match dialResult with
        | none =>
            let r := p1.release
            (GetResult.dialErr, r.1, r.2)
        | some dc =>
            (GetResult.conn { Client := some dc, t := now }, p1, false)
      else
        (GetResult.wouldBlock, { p with cond := true }, false)

/-- Method `Pool.put`: pushes the handle onto the front of the idle slice unless
the pool is closed or the client is errored (in which case the client is
closed instead).  Returns the new pool and the clients closed. -/
def Pool.put (p : Pool) (pc : PooledConnection) (now : Int) :
    Pool × List Client :=
  if p.closed then
    (p, closeClient pc.Client)
  else if pc.Client.isSome && clientErrored pc.Client then
    (p, closeClient pc.Client)
  else
    let idle : IdleConnection := { pc := pc, t := now }
    (Pool.startCleanerLocked { p with idle := idle :: p.idle }, [])

/-- Method `PooledConnection.Close` (the release operation): `put` then
`release`, under the pool lock.  Returns the new pool, the clients closed,
and whether a waiter was signalled. -/
def PooledConnection.close (p : Pool) (pc : PooledConnection) (now : Int) :
    Pool × List Gremgo.Client × Bool :=
  let r1 := p.put pc now
  let r2 := r1.1.release
  (r2.1, r1.2, r2.2)

/-- Method `Pool.Close`: signals the cleaner channel if present (Go panics when
the channel is already closed, modelled as `none`), closes every client in
the idle slice, and sets `closed`.  The idle slice itself is not cleared.
Returns the new pool and the clients closed. -/
def Pool.close (p : Pool) : Option (Pool × List Client) :=
  match p.cleanerCh with
  | some true => none
  | some false =>
      some ({ p with cleanerCh := some true, closed := true },
        p.idle.flatMap fun c => closeClient c.pc.Client)
  | none =>
      some ({ p with closed := true },
        p.idle.flatMap fun c => closeClient c.pc.Client)

/-- The eviction condition tested by `connectionCleaner` on an idle entry
at time `n`: lifetime exceeded (`ml > 0 && c.pc.t.Before(n.Add(-ml))`), or
idle timeout exceeded (`it > 0 && c.t.Before(n.Add(-it))`), or the client
is flagged errored. -/
def idleExpired (ml it n : Int) (c : IdleConnection) : Bool :=
  (decide (0 < ml) && decide (c.pc.t < n - ml)) ||
    (decide (0 < it) && decide (c.t < n - it)) ||
      clientErrored c.pc.Client

/-- The operation `p.idle[i] = p.idle[last]; p.idle = p.idle[:last]`: the swap-remove
used by the scan in `connectionCleaner`. -/
def swapRemoveAt (l : List IdleConnection) (i : Nat) : List IdleConnection :=
  match l.getLast? with
  | none => []
  | some last => (l.set i last).dropLast

theorem swapRemoveAt_length (l : List IdleConnection) (i : Nat) (h : l ≠ []) :
    (swapRemoveAt l i).length = l.length - 1 := by
  unfold swapRemoveAt
  match hl : l.getLast? with
  | none => exact absurd (List.getLast?_eq_none_iff.mp hl) h
  | some last => simp

/-- The scan loop of `connectionCleaner` (pool.go lines 144-156): starting at
index `i` with accumulated `closing`, repeatedly swap-remove the entry at
`i` when it is expired (re-examining index `i`, as `i--` then `i++` does),
otherwise advance.  Returns the remaining idle slice and the `closing`
list in accumulation order. -/
def cleanScan (ml it n : Int) (l : List IdleConnection) (i : Nat)
    (closing : List IdleConnection) : List IdleConnection × List IdleConnection :=
  if h : i < l.length then
    if idleExpired ml it n l[i] then
      cleanScan ml it n (swapRemoveAt l i) i (closing ++ [l[i]])
    else
      cleanScan ml it n l (i + 1) closing
  else
    (l, closing)
termination_by l.length - i
decreasing_by
  · rw [swapRemoveAt_length l i (by intro he; subst he; simp at h)]
    omega
  · omega

/-- One wakeup of the loop body of `connectionCleaner` (pool.go lines 126-166),
under the lock: if the pool is closed, the idle slice is empty, or both
limits are non-positive, the cleaner resets `cleanerCh` and terminates;
otherwise it scans the idle slice, removing expired entries.  Returns the
new pool and the removed entries (whose non-nil clients are then closed
outside the lock). -/
def Pool.cleanerTick (p : Pool) (n : Int) : Pool × List IdleConnection :=
  let ml := p.MaxLifetime
  let it := p.IdleTimeout
  if p.closed ∨ p.idle = [] ∨ (ml ≤ 0 ∧ it ≤ 0) then
    ({ p with cleanerCh := none }, [])
  else
    let r := cleanScan ml it n p.idle 0 []
    ({ p with idle := r.1 }, r.2)

/-! Small facts about `startCleanerLocked` used below. -/

theorem Pool.startCleanerLocked_idle (p : Pool) :
    p.startCleanerLocked.idle = p.idle := by
  unfold Pool.startCleanerLocked; split <;> rfl

theorem Pool.startCleanerLocked_closed (p : Pool) :
    p.startCleanerLocked.closed = p.closed := by
  unfold Pool.startCleanerLocked; split <;> rfl

theorem Pool.startCleanerLocked_active (p : Pool) :
    p.startCleanerLocked.active = p.active := by
  unfold Pool.startCleanerLocked; split <;> rfl

/-- C1: the claim fails on the code.  Starting from the empty pool with
`MaxActive = 1`, the operation sequence Get (dial succeeds), handle
Close, Get, Get drives `active` to `2 > MaxActive`: the idle branch of `Get`
increments `active` but — despite its own comment "Remove the connection
from the idle slice" — never removes the entry, so the same idle entry is
served repeatedly. -/
theorem c1_active_exceeds_maxActive :
    (let p0 : Pool :=
      { MaxActive := 1, IdleTimeout := 0, MaxLifetime := 0, idle := [],
        active := 0, cond := false, cleanerCh := none, closed := false }
     let c0 : Client := { id := 0, Errored := false }
     let s1 := p0.get (some c0) 10
     let s2 := PooledConnection.close s1.2.1
       (s1.1.conn?.getD { Client := none, t := 0 }) 20
     let s3 := s2.1.get none 30
     let s4 := s3.2.1.get none 40
     s4.2.1.active = 2 ∧ s4.2.1.MaxActive = 1 ∧ s4.2.1.idle.length = 1) := by
  decide

/-- C2 counterexample: on a pool with exactly one idle entry, Get leaves
the registry unchanged (still one entry, not zero) and increments the
active counter, contrary to the claim that the entry is removed and the
counter left unchanged. -/
theorem c2_counterexample :
    (let e : IdleConnection :=
      { pc := { Client := some { id := 1, Errored := false }, t := 3 }, t := 4 }
     let p : Pool :=
      { MaxActive := 0, IdleTimeout := 0, MaxLifetime := 0, idle := [e],
        active := 0, cond := false, cleanerCh := none, closed := false }
     let r := p.get none 5
     r.1 = GetResult.conn { Client := e.pc.Client, t := 0 } ∧
       r.2.1.idle = [e] ∧ r.2.1.active = 1 ∧
       ¬(r.2.1.idle = [] ∧ r.2.1.active = 0)) := by
  decide

/-- C2 (amended): when Get is called on a pool whose Idle Registry is
non-empty, it returns a connection whose client is that of the
most-recently-idled entry (the head of the idle slice, since `put`
prepends) and increments the active counter by one; the registry itself is
left unchanged — the entry is not removed. -/
theorem c2_get_idle_amended (p : Pool) (e : IdleConnection)
    (rest : List IdleConnection) (dial : Option Client) (now : Int)
    (h : p.idle = e :: rest) :
    p.get dial now =
      (GetResult.conn { Client := e.pc.Client, t := 0 },
        { p with active := p.active + 1 }, false) := by
  simp [Pool.get, Pool.first, h]

/-- C2 witness: the amended Get behaviour at a concrete pool. -/
theorem c2_witness :
    Pool.get
      { MaxActive := 0, IdleTimeout := 0, MaxLifetime := 0,
        idle := [{ pc := { Client := some { id := 1, Errored := false }, t := 3 },
                   t := 4 }],
        active := 0, cond := false, cleanerCh := none, closed := false }
      none 5 =
      (GetResult.conn { Client := some { id := 1, Errored := false }, t := 0 },
        { MaxActive := 0, IdleTimeout := 0, MaxLifetime := 0,
          idle := [{ pc := { Client := some { id := 1, Errored := false }, t := 3 },
                     t := 4 }],
          active := 1, cond := false, cleanerCh := none, closed := false },
        false) :=
  c2_get_idle_amended _ _ _ _ _ rfl

/-- C3 counterexample: a pool with `IdleTimeout = 1` holds an idle entry
idled at time 0; at time 100 the entry is expired, yet Get returns its
connection, removes nothing, closes nothing and increments the counter —
contrary to the claim that an expired entry is closed, the counter
decremented, and the acquire retried. -/
theorem c3_counterexample :
    (let e : IdleConnection :=
      { pc := { Client := some { id := 2, Errored := false }, t := 0 }, t := 0 }
     let p : Pool :=
      { MaxActive := 0, IdleTimeout := 1, MaxLifetime := 0, idle := [e],
        active := 0, cond := false, cleanerCh := none, closed := false }
     idleExpired p.MaxLifetime p.IdleTimeout 100 e = true ∧
       (p.get none 100).1 = GetResult.conn { Client := e.pc.Client, t := 0 } ∧
       (p.get none 100).2.1.idle = [e] ∧
       (p.get none 100).2.1.active = 1) := by
  decide

/-- C3 (amended): Get performs no expiry evaluation on idle entries — even
when the head entry of the registry is expired (by the eviction
criterion of the sweeper) at the current time, Get returns it as a live connection and
leaves the registry unchanged.  Expired idle entries are removed only by
the sweeper. -/
theorem c3_get_returns_expired (p : Pool) (e : IdleConnection)
    (rest : List IdleConnection) (dial : Option Client) (now : Int)
    (h : p.idle = e :: rest)
    (hexp : idleExpired p.MaxLifetime p.IdleTimeout now e = true) :
    (p.get dial now).1 = GetResult.conn { Client := e.pc.Client, t := 0 } ∧
      (p.get dial now).2.1.idle = p.idle := by
  simp [Pool.get, Pool.first, h]

/-- C3 witness: the amended behaviour at a concrete expired entry. -/
theorem c3_witness :
    (Pool.get
        { MaxActive := 0, IdleTimeout := 1, MaxLifetime := 0,
          idle := [{ pc := { Client := some { id := 2, Errored := false }, t := 0 },
                     t := 0 }],
          active := 0, cond := false, cleanerCh := none, closed := false }
        none 100).1 =
      GetResult.conn { Client := some { id := 2, Errored := false }, t := 0 } ∧
    (Pool.get
        { MaxActive := 0, IdleTimeout := 1, MaxLifetime := 0,
          idle := [{ pc := { Client := some { id := 2, Errored := false }, t := 0 },
                     t := 0 }],
          active := 0, cond := false, cleanerCh := none, closed := false }
        none 100).2.1.idle =
      [{ pc := { Client := some { id := 2, Errored := false }, t := 0 }, t := 0 }] :=
  c3_get_returns_expired
    { MaxActive := 0, IdleTimeout := 1, MaxLifetime := 0,
      idle := [{ pc := { Client := some { id := 2, Errored := false }, t := 0 },
                 t := 0 }],
      active := 0, cond := false, cleanerCh := none, closed := false }
    { pc := { Client := some { id := 2, Errored := false }, t := 0 }, t := 0 }
    [] none 100 rfl (by decide)

/-- C4 counterexample: on an open pool with `MaxLifetime = 1`, releasing a
non-errored handle created at time 0 at time 100 (age far beyond the
lifetime) reinserts it into the Idle Registry and closes nothing —
contrary to the claim that a lifetime-expired connection is closed and not
reinserted. -/
theorem c4_counterexample :
    (let c : Client := { id := 3, Errored := false }
     let pc : PooledConnection := { Client := some c, t := 0 }
     let p : Pool :=
      { MaxActive := 0, IdleTimeout := 0, MaxLifetime := 1, idle := [],
        active := 1, cond := false, cleanerCh := none, closed := false }
     let r := PooledConnection.close p pc 100
     r.1.idle = [{ pc := pc, t := 100 }] ∧ r.2.1 = []) := by
  decide

/-- C4 (amended): when a handle is released on an open pool and its
connection is flagged errored, the connection is closed, the active
counter is decremented, and it is not reinserted into the Idle Registry;
the age of the connection is not examined on release — a lifetime-expired,
non-errored connection is reinserted into the registry with no client
closed. -/
theorem c4_release_amended :
    (∀ (p : Pool) (pc : PooledConnection) (c : Client) (now : Int),
        p.closed = false → pc.Client = some c → c.Errored = true →
        PooledConnection.close p pc now =
          ({ p with active := p.active - 1 }, [c], p.cond)) ∧
    (∀ (p : Pool) (pc : PooledConnection) (c : Client) (now : Int),
        p.closed = false → pc.Client = some c → c.Errored = false →
        0 < p.MaxLifetime → p.MaxLifetime ≤ now - pc.t →
        (PooledConnection.close p pc now).1.idle =
            { pc := pc, t := now } :: p.idle ∧
          (PooledConnection.close p pc now).2.1 = []) := by
  constructor
  · intro p pc c now hcl hc he
    simp [PooledConnection.close, Pool.put, Pool.release, hcl, hc, he,
      clientErrored, closeClient]
  · intro p pc c now hcl hc he hml hage
    have h1 : p.put pc now =
        (Pool.startCleanerLocked { p with idle := { pc := pc, t := now } :: p.idle },
          []) := by
      simp [Pool.put, hcl, hc, he, clientErrored]
    constructor <;>
      simp [PooledConnection.close, h1, Pool.release,
        Pool.startCleanerLocked_closed, hcl, Pool.startCleanerLocked_idle]

/-- C4 witness: both amended branches at concrete inputs. -/
theorem c4_witness :
    PooledConnection.close
        { MaxActive := 0, IdleTimeout := 0, MaxLifetime := 1, idle := [],
          active := 1, cond := false, cleanerCh := none, closed := false }
        { Client := some { id := 3, Errored := true }, t := 0 } 100 =
      ({ MaxActive := 0, IdleTimeout := 0, MaxLifetime := 1, idle := [],
         active := 0, cond := false, cleanerCh := none, closed := false },
        [{ id := 3, Errored := true }], false) ∧
    (PooledConnection.close
        { MaxActive := 0, IdleTimeout := 0, MaxLifetime := 1, idle := [],
          active := 1, cond := false, cleanerCh := none, closed := false }
        { Client := some { id := 3, Errored := false }, t := 0 } 100).1.idle =
      [{ pc := { Client := some { id := 3, Errored := false }, t := 0 }, t := 100 }] :=
  ⟨c4_release_amended.1 _ _ _ _ rfl rfl rfl,
    (c4_release_amended.2 _ _ _ 100 rfl rfl rfl (by decide) (by decide)).1⟩

/-- C5 counterexample: on an already-closed pool, a Get whose dial fails
leaves the active counter incremented (1, not restored to 0) and signals
no waiter even though the condition variable exists — `release` is a no-op
on a closed pool — contrary to the claim that the counter is always
restored and a waiter always woken. -/
theorem c5_counterexample :
    (let p : Pool :=
      { MaxActive := 0, IdleTimeout := 0, MaxLifetime := 0, idle := [],
        active := 0, cond := true, cleanerCh := none, closed := true }
     (p.get none 50).1 = GetResult.dialErr ∧
       (p.get none 50).2.1.active = 1 ∧ p.active = 0 ∧
       (p.get none 50).2.2 = false) := by
  decide

/-- C5 (amended): if the dial fails during Get on a pool that has not been
closed, the dial error is returned, the active counter is restored to its
pre-call value (the whole pool state is unchanged), and a waiter is
signalled exactly when the condition variable of the pool exists; on a closed
pool the increment is not undone. -/
theorem c5_dial_fail_amended (p : Pool) (now : Int)
    (hcl : p.closed = false) (hidle : p.idle = [])
    (hcap : p.MaxActive = 0 ∨ p.active < p.MaxActive) :
    p.get none now = (GetResult.dialErr, p, p.cond) := by
  cases p
  simp_all [Pool.get, Pool.first, Pool.release]

/-- C5 witness: the amended dial-failure behaviour at a concrete pool. -/
theorem c5_witness :
    Pool.get
      { MaxActive := 0, IdleTimeout := 0, MaxLifetime := 0, idle := [],
        active := 0, cond := true, cleanerCh := none, closed := false }
      none 7 =
      (GetResult.dialErr,
        { MaxActive := 0, IdleTimeout := 0, MaxLifetime := 0, idle := [],
          active := 0, cond := true, cleanerCh := none, closed := false },
        true) :=
  c5_dial_fail_amended _ 7 rfl rfl (Or.inl rfl)

/-! Structure of the swap-remove used by the cleaner (`swapRemoveAt`): removing the
entry at index `i` keeps the prefix below `i` intact and permutes the
rest, dropping exactly one occurrence of the removed entry. -/

theorem swapRemoveAt_cases (l : List IdleConnection) (i : Nat)
    (h : i < l.length) :
    (l.length = i + 1 ∧ swapRemoveAt l i = l.take i) ∨
    (∃ C d, l.drop (i + 1) = C ++ [d] ∧
      swapRemoveAt l i = l.take i ++ d :: C) := by
  have hset : ∀ a : IdleConnection,
      l.set i a = l.take i ++ a :: l.drop (i + 1) :=
    fun a => List.set_eq_take_cons_drop a h
  rcases List.eq_nil_or_concat (l.drop (i + 1)) with hD | ⟨C, d, hD⟩
  · left
    have hlen : l.length = i + 1 := by
      have := List.drop_eq_nil_iff.mp hD
      omega
    refine ⟨hlen, ?_⟩
    have hdrop : l.drop i = [l[i]] := by
      rw [List.drop_eq_getElem_cons h, hD]
    have hl : l = l.take i ++ [l[i]] := by
      rw [← hdrop, List.take_append_drop]
    have hlast : l.getLast? = some l[i] :=
      (congrArg List.getLast? hl).trans (List.getLast?_concat _)
    unfold swapRemoveAt
    rw [hlast]
    show (l.set i l[i]).dropLast = l.take i
    rw [hset l[i], hD]
    exact List.dropLast_concat
  · right
    rw [List.concat_eq_append] at hD
    refine ⟨C, d, hD, ?_⟩
    have h1 : l = l.take (i + 1) ++ (C ++ [d]) := by
      rw [← hD, List.take_append_drop]
    have hlast : l.getLast? = some d := by
      refine (congrArg List.getLast? h1).trans ?_
      rw [List.getLast?_append, List.getLast?_concat]
      rfl
    unfold swapRemoveAt
    rw [hlast]
    show (l.set i d).dropLast = l.take i ++ d :: C
    rw [hset d, hD]
    have h2 : l.take i ++ d :: (C ++ [d]) = (l.take i ++ d :: C) ++ [d] := by
      simp
    rw [h2, List.dropLast_concat]

theorem swapRemoveAt_take (l : List IdleConnection) (i : Nat)
    (h : i < l.length) :
    (swapRemoveAt l i).take i = l.take i := by
  rcases swapRemoveAt_cases l i h with ⟨hlen, hsw⟩ | ⟨C, d, hD, hsw⟩
  · rw [hsw]
    exact List.take_of_length_le (by rw [List.length_take]; omega)
  · rw [hsw]
    exact List.take_left' (by rw [List.length_take]; omega)

theorem swapRemoveAt_drop_perm (l : List IdleConnection) (i : Nat)
    (h : i < l.length) :
    (l.drop i).Perm (l[i] :: (swapRemoveAt l i).drop i) := by
  rcases swapRemoveAt_cases l i h with ⟨hlen, hsw⟩ | ⟨C, d, hD, hsw⟩
  · rw [hsw, List.drop_eq_getElem_cons h, List.drop_eq_nil_of_le (by omega),
      show (l.take i).drop i = [] from
        List.drop_eq_nil_of_le (by rw [List.length_take]; omega)]
  · rw [hsw, List.drop_eq_getElem_cons h, hD,
      show (l.take i ++ d :: C).drop i = d :: C from
        List.drop_left' (by rw [List.length_take]; omega)]
    exact List.Perm.cons _ List.perm_append_comm

/-- The cleaner scan loop computes, up to permutation, the partition of
the idle slice by the eviction condition: the kept entries are those not
expired, the removed ones those expired (appended to `closing`). -/
theorem cleanScan_perm (ml it n : Int) :
    ∀ (k i : Nat) (l closing : List IdleConnection), l.length - i ≤ k →
      (cleanScan ml it n l i closing).1.Perm
        (l.take i ++ (l.drop i).filter fun c => !idleExpired ml it n c) ∧
      (cleanScan ml it n l i closing).2.Perm
        (closing ++ (l.drop i).filter fun c => idleExpired ml it n c) := by
  intro k
  induction k with
  | zero =>
    intro i l closing hk
    have hi : l.length ≤ i := by omega
    rw [cleanScan.eq_def, dif_neg (by omega)]
    constructor
    · rw [List.take_of_length_le hi, List.drop_eq_nil_of_le hi]
      simp only [List.filter_nil, List.append_nil]
      exact List.Perm.refl _
    · rw [List.drop_eq_nil_of_le hi]
      simp only [List.filter_nil, List.append_nil]
      exact List.Perm.refl _
  | succ k ih =>
    intro i l closing hk
    by_cases hi : i < l.length
    · rw [cleanScan.eq_def, dif_pos hi]
      by_cases hexp : idleExpired ml it n l[i] = true
      · rw [if_pos hexp]
        have hlen : (swapRemoveAt l i).length = l.length - 1 :=
          swapRemoveAt_length l i (by intro he; subst he; simp at hi)
        obtain ⟨ih1, ih2⟩ :=
          ih i (swapRemoveAt l i) (closing ++ [l[i]]) (by omega)
        have hdp := swapRemoveAt_drop_perm l i hi
        constructor
        · refine ih1.trans ?_
          rw [swapRemoveAt_take l i hi]
          refine List.Perm.append_left _ ?_
          have hf := (hdp.filter fun c => !idleExpired ml it n c).symm
          rwa [List.filter_cons_of_neg (by simp [hexp])] at hf
        · refine ih2.trans ?_
          have hf := (hdp.filter fun c => idleExpired ml it n c).symm
          rw [List.filter_cons_of_pos (by simpa using hexp)] at hf
          rw [List.append_assoc, List.singleton_append]
          exact List.Perm.append_left _ hf
      · rw [if_neg hexp]
        have hexp' : idleExpired ml it n l[i] = false := by
          revert hexp
          cases idleExpired ml it n l[i] <;> simp
        obtain ⟨ih1, ih2⟩ := ih (i + 1) l closing (by omega)
        have hdrop : l.drop i = l[i] :: l.drop (i + 1) :=
          List.drop_eq_getElem_cons hi
        have htake : l.take (i + 1) = l.take i ++ [l[i]] := by
          rw [List.take_succ, List.getElem?_eq_getElem hi]
          rfl
        constructor
        · refine ih1.trans ?_
          rw [hdrop, List.filter_cons_of_pos (by simp [hexp']), htake,
            List.append_assoc, List.singleton_append]
        · refine ih2.trans ?_
          rw [hdrop, List.filter_cons_of_neg (by simp [hexp'])]
    · rw [cleanScan.eq_def, dif_neg hi]
      constructor
      · rw [List.take_of_length_le (by omega),
          List.drop_eq_nil_of_le (by omega)]
        simp only [List.filter_nil, List.append_nil]
        exact List.Perm.refl _
      · rw [List.drop_eq_nil_of_le (by omega)]
        simp only [List.filter_nil, List.append_nil]
        exact List.Perm.refl _

/-- C6 counterexample: a sweeper tick on an open pool with `MaxLifetime =
10` at time 100 removes the lifetime-expired entry (created at time 5) and
keeps the fresh one, but the active counter stays at 7 — it is not
decremented for the removed entry, contrary to the claim. -/
theorem c6_counterexample :
    (let e1 : IdleConnection :=
      { pc := { Client := some { id := 7, Errored := false }, t := 5 }, t := 50 }
     let e2 : IdleConnection :=
      { pc := { Client := some { id := 8, Errored := false }, t := 95 }, t := 60 }
     let p : Pool :=
      { MaxActive := 0, IdleTimeout := 0, MaxLifetime := 10, idle := [e1, e2],
        active := 7, cond := false, cleanerCh := some false, closed := false }
     idleExpired p.MaxLifetime p.IdleTimeout 100 e1 = true ∧
       (p.cleanerTick 100).1.idle = [e2] ∧
       (p.cleanerTick 100).2 = [e1] ∧
       (p.cleanerTick 100).1.active = 7) := by
  refine ⟨by decide, ?_, ?_, ?_⟩ <;>
    simp [Pool.cleanerTick, cleanScan, swapRemoveAt, idleExpired, clientErrored]

/-- C6 (amended): on each sweeper tick over an open pool with a non-empty
Idle Registry and at least one of the two limits positive, the registry
afterwards holds exactly — up to reordering, an artifact of swap-removal —
the entries that are neither lifetime-expired nor idle-expired nor
errored, and the entries removed for closing are exactly the expired or
errored ones; the active counter is not decremented — it is unchanged
(in this code idle connections are not counted in `active`: `release`
already decremented it when the handle was returned to the pool). -/
theorem c6_sweeper_tick_amended (p : Pool) (n : Int)
    (hcl : p.closed = false) (hidle : p.idle ≠ [])
    (hlim : 0 < p.MaxLifetime ∨ 0 < p.IdleTimeout) :
    (p.cleanerTick n).1.idle.Perm
        (p.idle.filter fun c => !idleExpired p.MaxLifetime p.IdleTimeout n c) ∧
      (p.cleanerTick n).2.Perm
        (p.idle.filter fun c => idleExpired p.MaxLifetime p.IdleTimeout n c) ∧
      (p.cleanerTick n).1.active = p.active := by
  have hcond : ¬(p.closed = true ∨ p.idle = [] ∨
      (p.MaxLifetime ≤ 0 ∧ p.IdleTimeout ≤ 0)) := by
    rintro (h | h | h)
    · rw [hcl] at h
      exact Bool.noConfusion h
    · exact hidle h
    · obtain ⟨h1, h2⟩ := h
      rcases hlim with hml | hit <;> omega
  have hstep : p.cleanerTick n =
      ({ p with
          idle := (cleanScan p.MaxLifetime p.IdleTimeout n p.idle 0 []).1 },
        (cleanScan p.MaxLifetime p.IdleTimeout n p.idle 0 []).2) := by
    simp only [Pool.cleanerTick]
    rw [if_neg hcond]
  obtain ⟨h1, h2⟩ := cleanScan_perm p.MaxLifetime p.IdleTimeout n
    p.idle.length 0 p.idle [] (by omega)
  rw [List.take_zero, List.drop_zero, List.nil_append] at h1
  rw [List.drop_zero, List.nil_append] at h2
  rw [hstep]
  exact ⟨h1, h2, rfl⟩

/-- C6 witness: the amended tick behaviour at a concrete pool holding one
lifetime-expired and one fresh idle entry. -/
theorem c6_witness :
    (Pool.cleanerTick
        { MaxActive := 0, IdleTimeout := 0, MaxLifetime := 10,
          idle := [{ pc := { Client := some { id := 7, Errored := false }, t := 5 },
                     t := 50 },
                   { pc := { Client := some { id := 8, Errored := false }, t := 95 },
                     t := 60 }],
          active := 7, cond := false, cleanerCh := some false, closed := false }
        100).1.idle.Perm
      (([{ pc := { Client := some { id := 7, Errored := false }, t := 5 },
           t := 50 },
         { pc := { Client := some { id := 8, Errored := false }, t := 95 },
           t := 60 }] : List IdleConnection).filter
        fun c => !idleExpired 10 0 100 c) ∧
    (Pool.cleanerTick
        { MaxActive := 0, IdleTimeout := 0, MaxLifetime := 10,
          idle := [{ pc := { Client := some { id := 7, Errored := false }, t := 5 },
                     t := 50 },
                   { pc := { Client := some { id := 8, Errored := false }, t := 95 },
                     t := 60 }],
          active := 7, cond := false, cleanerCh := some false, closed := false }
        100).2.Perm
      (([{ pc := { Client := some { id := 7, Errored := false }, t := 5 },
           t := 50 },
         { pc := { Client := some { id := 8, Errored := false }, t := 95 },
           t := 60 }] : List IdleConnection).filter
        fun c => idleExpired 10 0 100 c) ∧
    (Pool.cleanerTick
        { MaxActive := 0, IdleTimeout := 0, MaxLifetime := 10,
          idle := [{ pc := { Client := some { id := 7, Errored := false }, t := 5 },
                     t := 50 },
                   { pc := { Client := some { id := 8, Errored := false }, t := 95 },
                     t := 60 }],
          active := 7, cond := false, cleanerCh := some false, closed := false }
        100).1.active = 7 :=
  c6_sweeper_tick_amended _ 100 rfl (by decide) (Or.inl (by decide))

/-- C7 counterexample: closing a pool holding one idle entry closes its
client and sets the closed flag, but the Idle Registry still holds the
entry afterwards — the idle slice is not cleared, contrary to the claim. -/
theorem c7_counterexample :
    (let e : IdleConnection :=
      { pc := { Client := some { id := 4, Errored := false }, t := 0 }, t := 0 }
     let p : Pool :=
      { MaxActive := 0, IdleTimeout := 0, MaxLifetime := 0, idle := [e],
        active := 0, cond := false, cleanerCh := none, closed := false }
     p.close = some ({ p with closed := true }, [{ id := 4, Errored := false }]) ∧
       (p.close.map fun r => r.1.idle) = some [e]) := by
  decide

/-- C7 (amended): when `Pool.Close` does not panic (the cleaner channel is
not already closed), it closes every connection currently in the Idle
Registry (all of them) and sets the closed flag, but does not clear the
registry: the idle slice keeps its entries. -/
theorem c7_close_amended (p : Pool) (h : p.cleanerCh ≠ some true) :
    ∃ p' cs, p.close = some (p', cs) ∧ p'.closed = true ∧ p'.idle = p.idle ∧
      cs = p.idle.flatMap fun c => closeClient c.pc.Client := by
  rcases hc : p.cleanerCh with _ | b
  · exact ⟨{ p with closed := true },
      p.idle.flatMap fun c => closeClient c.pc.Client,
      by simp [Pool.close, hc], rfl, rfl, rfl⟩
  · cases b
    · exact ⟨{ p with cleanerCh := some true, closed := true },
        p.idle.flatMap fun c => closeClient c.pc.Client,
        by simp [Pool.close, hc], rfl, rfl, rfl⟩
    · exact absurd hc h

/-- C7 witness: the amended Close behaviour at a concrete pool with two
idle entries. -/
theorem c7_witness :
    ∃ p' cs,
      Pool.close
          { MaxActive := 0, IdleTimeout := 0, MaxLifetime := 0,
            idle := [{ pc := { Client := some { id := 4, Errored := false }, t := 0 },
                       t := 0 },
                     { pc := { Client := some { id := 9, Errored := false }, t := 1 },
                       t := 1 }],
            active := 0, cond := false, cleanerCh := none, closed := false } =
        some (p', cs) ∧
      p'.closed = true ∧
      p'.idle =
        [{ pc := { Client := some { id := 4, Errored := false }, t := 0 }, t := 0 },
         { pc := { Client := some { id := 9, Errored := false }, t := 1 }, t := 1 }] ∧
      cs =
        ([{ pc := { Client := some { id := 4, Errored := false }, t := 0 }, t := 0 },
           { pc := { Client := some { id := 9, Errored := false }, t := 1 },
             t := 1 }] : List IdleConnection).flatMap
          fun c => closeClient c.pc.Client :=
  c7_close_amended _ (by decide)

/-- C8 counterexample: a reachable trace — Get (dial succeeds), handle
Close, Pool.Close — leaves a closed pool whose registry still holds the
(now closed) connection; a subsequent Get succeeds, returning a
connection, instead of failing with a pool-closed error or blocking. -/
theorem c8_counterexample :
    (let p0 : Pool :=
      { MaxActive := 1, IdleTimeout := 0, MaxLifetime := 0, idle := [],
        active := 0, cond := false, cleanerCh := none, closed := false }
     let c0 : Client := { id := 5, Errored := false }
     let s1 := p0.get (some c0) 10
     let s2 := PooledConnection.close s1.2.1
       (s1.1.conn?.getD { Client := none, t := 0 }) 20
     let p3 := ((s2.1.close).getD ({ p0 with closed := true }, [])).1
     p3.closed = true ∧ (p3.get none 30).1.isConn = true) := by
  decide

/-- C8 (amended): Get never consults the closed flag.  After the pool is
closed, a Get still successfully returns a connection whenever a stale
idle entry remains in the registry or capacity allows and the dial
succeeds; it does not fail with a pool-closed error. -/
theorem c8_get_after_close_amended (p : Pool) (dial : Option Client)
    (now : Int) (c : Client) (hcl : p.closed = true)
    (h : p.idle ≠ [] ∨
      ((p.MaxActive = 0 ∨ p.active < p.MaxActive) ∧ dial = some c)) :
    (p.get dial now).1.isConn = true := by
  match hidle : p.idle with
  | e :: rest => simp [Pool.get, Pool.first, hidle, GetResult.isConn]
  | [] =>
    rcases h with h | ⟨hcap, hd⟩
    · exact absurd hidle h
    · simp [Pool.get, Pool.first, hidle, hcap, hd, GetResult.isConn]

/-- C8 witness: Get succeeds on a concrete closed pool holding one idle
entry. -/
theorem c8_witness :
    (Pool.get
        { MaxActive := 1, IdleTimeout := 0, MaxLifetime := 0,
          idle := [{ pc := { Client := some { id := 5, Errored := false }, t := 10 },
                     t := 20 }],
          active := 0, cond := false, cleanerCh := none, closed := true }
        none 30).1.isConn = true :=
  c8_get_after_close_amended _ none 30 { id := 5, Errored := false } rfl
    (Or.inl (by decide))

/-- C9 counterexample: a reachable trace — Get (dial succeeds), handle
Close (which starts the sweeper, registering the cleaner channel), then
Pool.Close twice.  The first Close succeeds and closes the cleaner
channel; the second Close reaches `close(p.cleanerCh)` on an
already-closed channel and panics, contrary to the idempotence claim. -/
theorem c9_counterexample :
    (let p0 : Pool :=
      { MaxActive := 1, IdleTimeout := 0, MaxLifetime := 1000, idle := [],
        active := 0, cond := false, cleanerCh := none, closed := false }
     let c0 : Client := { id := 6, Errored := false }
     let s1 := p0.get (some c0) 10
     let s2 := PooledConnection.close s1.2.1
       (s1.1.conn?.getD { Client := none, t := 0 }) 20
     s2.1.cleanerCh = some false ∧ (s2.1.close).isSome = true ∧
       ((s2.1.close).bind fun r => r.1.close) = none) := by
  decide

/-- C9 (amended): a second `Pool.Close` succeeds and leaves the state
identical only when no cleaner channel is registered; when the cleaner
channel is still registered (the sweeper has not yet observed the stop
signal), the first Close leaves it in the closed state and a second Close
panics by closing an already-closed channel. -/
theorem c9_close_idempotent_amended :
    (∀ (p : Pool), p.cleanerCh = none →
      ∀ (p' : Pool) (cs : List Client), p.close = some (p', cs) →
        p'.close = some (p', cs)) ∧
    (∀ (p : Pool), p.cleanerCh = some false →
      ∀ (p' : Pool) (cs : List Client), p.close = some (p', cs) →
        p'.close = none) := by
  constructor
  · intro p hc p' cs h
    have h1 : p.close =
        some ({ p with closed := true },
          p.idle.flatMap fun c => closeClient c.pc.Client) := by
      simp [Pool.close, hc]
    rw [h1] at h
    injection h with h2
    have hp : p' = { p with closed := true } := (congrArg Prod.fst h2).symm
    have hcs : cs = p.idle.flatMap fun c => closeClient c.pc.Client :=
      (congrArg Prod.snd h2).symm
    subst hp; subst hcs
    simp [Pool.close, hc]
  · intro p hc p' cs h
    have h1 : p.close =
        some ({ p with cleanerCh := some true, closed := true },
          p.idle.flatMap fun c => closeClient c.pc.Client) := by
      simp [Pool.close, hc]
    rw [h1] at h
    injection h with h2
    have hp : p' = { p with cleanerCh := some true, closed := true } :=
      (congrArg Prod.fst h2).symm
    subst hp
    simp [Pool.close]

/-- C9 witness: both amended branches at concrete pools. -/
theorem c9_witness :
    Pool.close
        { MaxActive := 0, IdleTimeout := 0, MaxLifetime := 0, idle := [],
          active := 0, cond := false, cleanerCh := none, closed := true } =
      some ({ MaxActive := 0, IdleTimeout := 0, MaxLifetime := 0, idle := [],
              active := 0, cond := false, cleanerCh := none, closed := true },
        []) ∧
    Pool.close
        { MaxActive := 0, IdleTimeout := 0, MaxLifetime := 1000, idle := [],
          active := 0, cond := false, cleanerCh := some true, closed := true } =
      none :=
  ⟨c9_close_idempotent_amended.1
      { MaxActive := 0, IdleTimeout := 0, MaxLifetime := 0, idle := [],
        active := 0, cond := false, cleanerCh := none, closed := false }
      rfl _ _ rfl,
    c9_close_idempotent_amended.2
      { MaxActive := 0, IdleTimeout := 0, MaxLifetime := 1000, idle := [],
        active := 0, cond := false, cleanerCh := some false, closed := false }
      rfl _ _ rfl⟩

/-- C10: for every Get served from a non-empty Idle Registry, the returned
returned handle carries the zero time in its creation-time field (the
struct literal in Get omits it) rather than the original creation time
of the reused connection;
consequently, once such a handle is idled into a pool with positive
MaxLifetime, the lifetime check of the sweeper classifies it as expired at any
scan time later than MaxLifetime. -/
theorem c10_zero_time_lifetime_expired (p : Pool) (e : IdleConnection)
    (rest : List IdleConnection) (dial : Option Client) (now : Int)
    (h : p.idle = e :: rest) :
    ∃ pc : PooledConnection, (p.get dial now).1 = GetResult.conn pc ∧
      pc.t = 0 ∧
      ∀ (ml it n tIdle : Int), 0 < ml → ml < n →
        idleExpired ml it n { pc := pc, t := tIdle } = true := by
  refine ⟨{ Client := e.pc.Client, t := 0 }, ?_, rfl, ?_⟩
  · simp [Pool.get, Pool.first, h]
  · intro ml it n tIdle hml hn
    have h0 : (0 : Int) < n - ml := by omega
    simp [idleExpired, hml, h0]

/-- C10 witness: the zero creation time and the ensuing lifetime expiry at
a concrete pool, with original creation time 3. -/
theorem c10_witness :
    ∃ pc : PooledConnection,
      (Pool.get
          { MaxActive := 0, IdleTimeout := 0, MaxLifetime := 0,
            idle := [{ pc := { Client := some { id := 1, Errored := false }, t := 3 },
                       t := 4 }],
            active := 0, cond := false, cleanerCh := none, closed := false }
          none 5).1 = GetResult.conn pc ∧
      pc.t = 0 ∧
      ∀ (ml it n tIdle : Int), 0 < ml → ml < n →
        idleExpired ml it n { pc := pc, t := tIdle } = true :=
  c10_zero_time_lifetime_expired _ _ _ none 5 rfl

end Gremgo
